import Mathlib

/-!
# Shallow embedding of the tiny-gameboy emulator core

This file embeds the instruction-execution core of the emulator
(register file and flags, instruction set and decoder, memory bus,
video unit / tile cache, execution engine) and proves the specification
claims about it.

Modelling conventions:
* Rust `u8`/`u16` values are `Nat`s; wrapping arithmetic carries an
  explicit `% 256` / `% 65536`.
* Rust's plain `+` on `u16` (which is a program error on overflow:
  a panic under debug assertions) is modelled as `checked_add16`
  returning `none` on overflow.
* Array indexing with a possibly out-of-range index (a panic in Rust)
  is modelled by bounds-checked access returning `Option`.
* `panic!` and `todo!` paths are modelled as `none` / a `fatal` outcome.
* Fixed-size arrays are modelled as functions together with the
  declared length, with every access bounds-checked against
  that length exactly where the Rust indexing is checked.
-/

set_option autoImplicit false

namespace TinyGB

/-- Rust `u16::wrapping_add`. -/
def wrapping_add16 (a b : Nat) : Nat := (a + b) % 65536

/-- Rust `u16::wrapping_sub`. -/
def wrapping_sub16 (a b : Nat) : Nat := (a + (65536 - b % 65536)) % 65536

/-- Rust plain `+` on `u16`: overflow is a program error (debug panic),
modelled as `none`. -/
def checked_add16 (a b : Nat) : Option Nat :=
  if a + b < 65536 then some (a + b) else none

/-! ## src/utils.rs -/

/-- `get_msb` (src/utils.rs): `((value & 0xFF00) >> 8) as u8`. -/
def get_msb (value : Nat) : Nat := (value &&& 0xFF00) >>> 8

/-- `get_lsb` (src/utils.rs): `(value & 0xFF) as u8`. -/
def get_lsb (value : Nat) : Nat := value &&& 0xFF

/-- `get_u16` (src/utils.rs): `((msb as u16) << 8) | lsb as u16`. -/
def get_u16 (msb lsb : Nat) : Nat := (msb <<< 8) ||| lsb

/-! ## src/cpu/registers.rs -/

def ZERO_FLAG_BYTE_POSITION : Nat := 7
def SUBTRACT_FLAG_BYTE_POSITION : Nat := 6
def HALF_CARRY_FLAG_BYTE_POSITION : Nat := 5
def CARRY_FLAG_BYTE_POSITION : Nat := 4

structure FlagsRegister where
  zero : Bool
  subtract : Bool
  half_carry : Bool
  carry : Bool
deriving DecidableEq

/-- `impl From<FlagsRegister> for u8` (src/cpu/registers.rs). -/
def FlagsRegister.toU8 (flags : FlagsRegister) : Nat :=
  ((if flags.zero then 1 else 0) <<< ZERO_FLAG_BYTE_POSITION) |||
  ((if flags.subtract then 1 else 0) <<< SUBTRACT_FLAG_BYTE_POSITION) |||
  ((if flags.half_carry then 1 else 0) <<< HALF_CARRY_FLAG_BYTE_POSITION) |||
  ((if flags.carry then 1 else 0) <<< CARRY_FLAG_BYTE_POSITION)

/-- `impl From<u8> for FlagsRegister` (src/cpu/registers.rs). -/
def FlagsRegister.ofU8 (byte : Nat) : FlagsRegister :=
  { zero := ((byte >>> ZERO_FLAG_BYTE_POSITION) &&& 1) != 0
    subtract := ((byte >>> SUBTRACT_FLAG_BYTE_POSITION) &&& 1) != 0
    half_carry := ((byte >>> HALF_CARRY_FLAG_BYTE_POSITION) &&& 1) != 0
    carry := ((byte >>> CARRY_FLAG_BYTE_POSITION) &&& 1) != 0 }

structure Registers where
  a : Nat
  b : Nat
  c : Nat
  d : Nat
  e : Nat
  f : FlagsRegister
  h : Nat
  l : Nat

def Registers.get_bc (registers : Registers) : Nat :=
  (registers.b <<< 8) ||| registers.c

def Registers.set_bc (registers : Registers) (value : Nat) : Registers :=
  { registers with b := (value &&& 0xFF00) >>> 8, c := value &&& 0xFF }

def Registers.get_de (registers : Registers) : Nat :=
  (registers.d <<< 8) ||| registers.e

def Registers.set_de (registers : Registers) (value : Nat) : Registers :=
  { registers with d := (value &&& 0xFF00) >>> 8, e := value &&& 0xFF }

def Registers.get_hl (registers : Registers) : Nat :=
  (registers.h <<< 8) ||| registers.l

def Registers.set_hl (registers : Registers) (value : Nat) : Registers :=
  { registers with h := (value &&& 0xFF00) >>> 8, l := value &&& 0xFF }

/-! ## src/cpu/instructions.rs -/

inductive ArithmeticTarget where
  | A | B | C | D | E | F | H | L
deriving DecidableEq

inductive JumpType where
  | NotZero | Zero | NotCarry | Carry | Always
deriving DecidableEq

/-- `JumpType::should_jump` (src/cpu/instructions.rs). -/
def JumpType.should_jump (jt : JumpType) (flags : FlagsRegister) : Bool :=
  match jt with
  | .NotZero => !flags.zero
  | .Zero => flags.zero
  | .NotCarry => !flags.carry
  | .Carry => flags.carry
  | .Always => true

inductive LoadByteTarget where
  | A | B | C | D | E | H | L | HLI
deriving DecidableEq

inductive LoadByteSource where
  | A | B | C | D | E | H | L | D8 | HLI
deriving DecidableEq

inductive LoadTargetFromA where
  | BC | DE | D16
deriving DecidableEq

inductive LoadAFromSource where
  | BC | DE | D16
deriving DecidableEq

inductive LoadType where
  | Byte (target : LoadByteTarget) (source : LoadByteSource)
  | FromA (target : LoadTargetFromA)
  | ToA (source : LoadAFromSource)
deriving DecidableEq

inductive PushSource where
  | BC | DE | HL | AF
deriving DecidableEq

inductive PopTarget where
  | BC | DE | HL | AF
deriving DecidableEq

inductive Instruction where
  | ADD (target : ArithmeticTarget)
  | JP (jump_type : JumpType)
  | LD (load_type : LoadType)
  | PUSH (source : PushSource)
  | POP (target : PopTarget)
  | CALL (jump_type : JumpType)
  | RET (jump_type : JumpType)
  | NOP
  | HALT
deriving DecidableEq

/-- `Instruction::from_opcode_prefixed` (src/cpu/instructions.rs):
every arm of the source's match returns `None`. -/
def Instruction.from_opcode_prefixed (opcode : Nat) : Option Instruction :=
  match opcode with
  | 0x02 => none
  | _ => none

/-- `Instruction::from_opcode_not_prefixed` (src/cpu/instructions.rs):
every arm of the source's match returns `None`. -/
def Instruction.from_opcode_not_prefixed (opcode : Nat) : Option Instruction :=
  match opcode with
  | 0x02 => none
  | _ => none

/-- `Instruction::from_opcode` (src/cpu/instructions.rs). -/
def Instruction.from_opcode (opcode : Nat) (prefixed : Bool) : Option Instruction :=
  if prefixed then
    Instruction.from_opcode_prefixed opcode
  else
    Instruction.from_opcode_not_prefixed opcode

/-! ## src/gpu.rs -/

def VRAM_BEGIN : Nat := 0x8000
def VRAM_END : Nat := 0x9FFF
def VRAM_SIZE : Nat := VRAM_END - VRAM_BEGIN + 1

inductive TilePixelValue where
  | White | Gray | Light | Black
deriving DecidableEq

/-- The match in `GPU::write_memory` assigning a `TilePixelValue` from
`(l_ms_byte != 0, l_ls_byte != 0)`. -/
def pixel_value : Bool → Bool → TilePixelValue
  | true, true => .White
  | true, false => .Gray
  | false, true => .Light
  | false, false => .Black

/-- `GPU` (src/gpu.rs): `memory: [u8; VRAM_SIZE]` as a function plus the
declared length `VRAM_SIZE`; `tiles: [Tile; 384]` with
`Tile = [[TilePixelValue; 8]; 8]` as a curried function. -/
structure GPU where
  memory : Nat → Nat
  tiles : Nat → Nat → Nat → TilePixelValue

/-- `GPU::read_memory` (src/gpu.rs): `self.memory[address]`,
bounds-checked against the declared array length. -/
def GPU.read_memory (gpu : GPU) (address : Nat) : Option Nat :=
  if address < VRAM_SIZE then some (gpu.memory address) else none

/-- `GPU::write_memory` (src/gpu.rs): store the raw byte; if the offset is
below 0x1800, recompute the addressed tile row from the two bytes at the
even-aligned offset (the loop over the 8 pixel positions is modelled as a
guarded function update). -/
def GPU.write_memory (gpu : GPU) (address value : Nat) : Option GPU :=
  if address < VRAM_SIZE then
    let mem := fun i => if i = address then value else gpu.memory i
    if 0x1800 ≤ address then
      some { gpu with memory := mem }
    else
      let normalized_address := address &&& 0xFFFE
      let ms_byte := mem normalized_address
      let ls_byte := mem (normalized_address + 1)
      let tile_address := address / 16
      let row_address := (address % 16) / 2
      some { memory := mem
             tiles := fun t r p =>
               if t = tile_address ∧ r = row_address ∧ p < 8 then
                 pixel_value ((ms_byte &&& (1 <<< (7 - p))) != 0)
                             ((ls_byte &&& (1 <<< (7 - p))) != 0)
               else gpu.tiles t r p }
  else none

/-! ## src/memory.rs -/

/-- The declared length of `MemoryBus.memory`: `[u8; 0xFFFF]`
(src/memory.rs line 8) — 65535 slots, indices 0 through 0xFFFE. -/
def MEMORY_LEN : Nat := 0xFFFF

/-- `get_vram_address` (src/memory.rs). -/
def get_vram_address (address : Nat) : Nat := address - VRAM_BEGIN

structure MemoryBus where
  memory : Nat → Nat
  gpu : GPU

/-- `MemoryBus::read_byte` (src/memory.rs). The source's match pattern
`VRAM_BEGIN..VRAM_END` is Rust's half-open range: it matches
`VRAM_BEGIN ≤ address < VRAM_END`. Plain-storage indexing is
bounds-checked against the declared array length `MEMORY_LEN`. -/
def MemoryBus.read_byte (bus : MemoryBus) (address : Nat) : Option Nat :=
  if VRAM_BEGIN ≤ address ∧ address < VRAM_END then
    bus.gpu.read_memory (get_vram_address address)
  else if address < MEMORY_LEN then
    some (bus.memory address)
  else
    none

/-- `MemoryBus::write_byte` (src/memory.rs); same dispatch as `read_byte`. -/
def MemoryBus.write_byte (bus : MemoryBus) (address value : Nat) : Option MemoryBus :=
  if VRAM_BEGIN ≤ address ∧ address < VRAM_END then
    (bus.gpu.write_memory (get_vram_address address) value).map
      fun g => { bus with gpu := g }
  else if address < MEMORY_LEN then
    some { bus with memory := fun i => if i = address then value else bus.memory i }
  else
    none

/-! ## src/cpu/cpu.rs -/

structure CPU where
  registers : Registers
  pc : Nat
  sp : Nat
  bus : MemoryBus
  is_halted : Bool

/-- `CPU::read_next_byte`: `self.bus.read_byte(self.pc + 1)` with Rust's
checked `+`. -/
def CPU.read_next_byte (cpu : CPU) : Option Nat :=
  (checked_add16 cpu.pc 1).bind fun a => cpu.bus.read_byte a

/-- `CPU::read_next_word`: reads the little-endian word at pc+1 / pc+2
with Rust's checked `+`. -/
def CPU.read_next_word (cpu : CPU) : Option Nat :=
  (checked_add16 cpu.pc 1).bind fun a1 =>
  (cpu.bus.read_byte a1).bind fun least_significant_byte =>
  (checked_add16 cpu.pc 2).bind fun a2 =>
  (cpu.bus.read_byte a2).map fun most_significant_byte =>
  get_u16 most_significant_byte least_significant_byte

/-- The outcome of `CPU::decode`: either an instruction, or the `panic!`
arm (a process abort), carrying the data the source formats into the
panic message. -/
inductive DecodeOutcome where
  | decoded (instruction : Instruction)
  | fatal (instruction_byte : Nat) (prefixed : Bool)
deriving DecidableEq

/-- `CPU::decode` (src/cpu/cpu.rs): if `Instruction::from_opcode` finds no
entry, the source `panic!`s with a description of the byte and prefix
flag; the `&self` receiver is unused. -/
def CPU.decode (instruction_byte : Nat) (prefixed : Bool) : DecodeOutcome :=
  match Instruction.from_opcode instruction_byte prefixed with
  | some instruction => .decoded instruction
  | none => .fatal instruction_byte prefixed

/-- `CPU::add` (src/cpu/cpu.rs): flag updates; `half_carry` reads
`self.registers.a`, which still holds the old accumulator (the caller
stores `new_value` into `a` afterwards). Returns the CPU with updated
flags together with `new_value`. -/
def CPU.add (cpu : CPU) (value : Nat) : CPU × Nat :=
  let new_value := (cpu.registers.a + value) % 256
  let did_overflow := decide (256 ≤ cpu.registers.a + value)
  let f : FlagsRegister :=
    { zero := new_value == 0
      subtract := false
      carry := did_overflow
      half_carry := decide (0xF < (cpu.registers.a &&& 0xF) + (value &&& 0xF)) }
  ({ cpu with registers := { cpu.registers with f := f } }, new_value)

/-- `CPU::jump` (src/cpu/cpu.rs). -/
def CPU.jump (cpu : CPU) (should_jump : Bool) : Option (CPU × Nat) :=
  if should_jump then
    cpu.read_next_word.map fun w => (cpu, w)
  else
    some (cpu, wrapping_add16 cpu.pc 3)

/-- `CPU::push` (src/cpu/cpu.rs): decrement sp, write msb; decrement sp,
write lsb. -/
def CPU.push (cpu : CPU) (value : Nat) : Option CPU :=
  let sp1 := wrapping_sub16 cpu.sp 1
  (cpu.bus.write_byte sp1 (get_msb value)).bind fun bus1 =>
  let sp2 := wrapping_sub16 sp1 1
  (bus1.write_byte sp2 (get_lsb value)).map fun bus2 =>
  { cpu with sp := sp2, bus := bus2 }

/-- `CPU::pop` (src/cpu/cpu.rs): read lsb at sp, increment; read msb,
increment. -/
def CPU.pop (cpu : CPU) : Option (CPU × Nat) :=
  (cpu.bus.read_byte cpu.sp).bind fun least_significant_byte =>
  let sp1 := wrapping_add16 cpu.sp 1
  (cpu.bus.read_byte sp1).map fun most_significant_byte =>
  ({ cpu with sp := wrapping_add16 sp1 1 },
   get_u16 most_significant_byte least_significant_byte)

/-- `CPU::call` (src/cpu/cpu.rs): on a taken call, push pc+3 and then read
the target word through the (already pushed-to) bus. -/
def CPU.call (cpu : CPU) (should_jump : Bool) : Option (CPU × Nat) :=
  let next_pc := wrapping_add16 cpu.pc 3
  if should_jump then
    (cpu.push next_pc).bind fun cpu1 =>
    cpu1.read_next_word.map fun w => (cpu1, w)
  else
    some (cpu, next_pc)

/-- `CPU::return_` (src/cpu/cpu.rs). -/
def CPU.return_ (cpu : CPU) (should_jump : Bool) : Option (CPU × Nat) :=
  if should_jump then
    cpu.pop
  else
    some (cpu, wrapping_add16 cpu.pc 1)

/-- `CPU::execute` (src/cpu/cpu.rs): returns the mutated CPU together with
the next pc (the source's return value). The `todo!` arms for the
unimplemented `LD` load types are modelled as `none`. -/
def CPU.execute (cpu : CPU) (instruction : Instruction) : Option (CPU × Nat) :=
  if cpu.is_halted then some (cpu, cpu.pc) else
  match instruction with
  | .ADD target =>
    match target with
    | .C =>
      let value := cpu.registers.c
      let res := cpu.add value
      some ({ res.1 with registers := { res.1.registers with a := res.2 } },
            wrapping_add16 cpu.pc 1)
    | _ => some (cpu, cpu.pc)
  | .JP jump_type => cpu.jump (jump_type.should_jump cpu.registers.f)
  | .LD load_type =>
    match load_type with
    | .Byte target source =>
      (match source with
       | .A => some cpu.registers.a
       | .B => some cpu.registers.b
       | .C => some cpu.registers.c
       | .D => some cpu.registers.d
       | .E => some cpu.registers.e
       | .H => some cpu.registers.h
       | .L => some cpu.registers.l
       | .D8 => cpu.read_next_byte
       | .HLI => cpu.bus.read_byte cpu.registers.get_hl).bind fun source_value =>
      (match target with
       | .A => some { cpu with registers := { cpu.registers with a := source_value } }
       | .B => some { cpu with registers := { cpu.registers with b := source_value } }
       | .C => some { cpu with registers := { cpu.registers with c := source_value } }
       | .D => some { cpu with registers := { cpu.registers with d := source_value } }
       | .E => some { cpu with registers := { cpu.registers with e := source_value } }
       | .H => some { cpu with registers := { cpu.registers with h := source_value } }
       | .L => some { cpu with registers := { cpu.registers with l := source_value } }
       | .HLI => (cpu.bus.write_byte cpu.registers.get_hl source_value).map
                   fun b => { cpu with bus := b }).map fun cpu1 =>
      (cpu1,
       match source with
       | .D8 => wrapping_add16 cpu.pc 2
       | _ => wrapping_add16 cpu.pc 1)
    | _ => none
  | .PUSH source =>
    let source_value :=
      match source with
      | .AF => get_u16 cpu.registers.a cpu.registers.f.toU8
      | .BC => cpu.registers.get_bc
      | .DE => cpu.registers.get_de
      | .HL => cpu.registers.get_hl
    (cpu.push source_value).map fun cpu1 => (cpu1, wrapping_add16 cpu.pc 1)
  | .POP target =>
    cpu.pop.map fun res =>
      (match target with
       | .AF => { res.1 with registers := { res.1.registers with
                    a := get_msb res.2, f := FlagsRegister.ofU8 (get_lsb res.2) } }
       | .BC => { res.1 with registers := res.1.registers.set_bc res.2 }
       | .DE => { res.1 with registers := res.1.registers.set_de res.2 }
       | .HL => { res.1 with registers := res.1.registers.set_hl res.2 },
       wrapping_add16 cpu.pc 1)
  | .CALL jump_type => cpu.call (jump_type.should_jump cpu.registers.f)
  | .RET jump_type => cpu.return_ (jump_type.should_jump cpu.registers.f)
  | .NOP => some (cpu, wrapping_add16 cpu.pc 1)
  | .HALT => some ({ cpu with is_halted := true }, cpu.pc)

/-- `CPU::step` (src/cpu/cpu.rs): fetch, maybe fetch the prefixed byte
(with Rust's checked `+`), decode (whose `panic!` arm is `none`), execute,
assign the returned pc. -/
def CPU.step (cpu : CPU) : Option CPU :=
  (cpu.bus.read_byte cpu.pc).bind fun byte0 =>
  let prefixed := byte0 == 0xCB
  (if prefixed then
     (checked_add16 cpu.pc 1).bind fun a => cpu.bus.read_byte a
   else some byte0).bind fun instruction_byte =>
  match CPU.decode instruction_byte prefixed with
  | .decoded instruction =>
    (cpu.execute instruction).map fun res => { res.1 with pc := res.2 }
  | .fatal _ _ => none

/-! ## Spec-side definitions (for refinement-style claim statements) -/

/-- Spec-side: the opaque 2-bit shade index the spec's §4.5 palette table
assigns to each decoded pixel value. The spec treats the four shades as an
opaque 4-entry palette; this interpretation reads the even-offset byte as
the low plane and the odd-offset byte as the high plane, as the claim's
"(low-plane, high-plane) order" dictates. -/
def shadeIndex : TilePixelValue → Nat
  | .White => 3
  | .Gray => 2
  | .Light => 1
  | .Black => 0

/-- Spec-side: the claim's bit-pair-to-shade mapping —
(high=1, low=1) → 3, (high=1, low=0) → 1, (high=0, low=1) → 2,
(high=0, low=0) → 0. -/
def claimedShade (high low : Bool) : Nat :=
  match high, low with
  | true, true => 3
  | true, false => 1
  | false, true => 2
  | false, false => 0

/-! ## Concrete states for witnesses and counterexamples -/

def flags0 : FlagsRegister :=
  { zero := false, subtract := false, half_carry := false, carry := false }

def registers0 : Registers :=
  { a := 0, b := 0, c := 0, d := 0, e := 0, f := flags0, h := 0, l := 0 }

def gpu0 : GPU := { memory := fun _ => 0, tiles := fun _ _ _ => .Black }

def bus0 : MemoryBus := { memory := fun _ => 0, gpu := gpu0 }

def cpu0 : CPU :=
  { registers := registers0, pc := 0, sp := 0x100, bus := bus0, is_halted := false }

def cpuHalted0 : CPU :=
  { registers := registers0, pc := 0, sp := 0x100, bus := bus0, is_halted := true }

def cpuSp0 : CPU :=
  { registers := registers0, pc := 0, sp := 0, bus := bus0, is_halted := false }

/-! ## Helper lemmas -/

theorem from_opcode_prefixed_eq_none (opcode : Nat) :
    Instruction.from_opcode_prefixed opcode = none := by
  unfold Instruction.from_opcode_prefixed
  split <;> rfl

theorem from_opcode_not_prefixed_eq_none (opcode : Nat) :
    Instruction.from_opcode_not_prefixed opcode = none := by
  unfold Instruction.from_opcode_not_prefixed
  split <;> rfl

/-- Recomposing a 16-bit value from its `get_msb`/`get_lsb` halves is the
identity. -/
theorem get_u16_msb_lsb (v : Nat) (hv : v < 65536) :
    get_u16 (get_msb v) (get_lsb v) = v := by
  unfold get_u16 get_msb get_lsb
  have e1 : (0xFF : Nat) = 2 ^ 8 - 1 := by norm_num
  have e2 : (0xFF00 : Nat) = (2 ^ 8 - 1) <<< 8 := by decide
  rw [e1, e2]
  apply Nat.eq_of_testBit_eq
  intro i
  simp only [Nat.testBit_or, Nat.testBit_and, Nat.testBit_shiftLeft,
    Nat.testBit_shiftRight, Nat.testBit_two_pow_sub_one]
  by_cases h8 : 8 ≤ i
  · have hi : 8 + (i - 8) = i := by omega
    rw [hi]
    by_cases h16 : i < 16
    · have hd1 : i - 8 < 8 := by omega
      have hd2 : ¬ i < 8 := by omega
      simp [h8, hd1, hd2, ge_iff_le]
    · have hz : v.testBit i = false := by
        apply Nat.testBit_lt_two_pow
        calc v < 65536 := hv
          _ = 2 ^ 16 := by norm_num
          _ ≤ 2 ^ i := Nat.pow_le_pow_right (by norm_num) (by omega)
      simp [hz]
  · have hd : i < 8 := by omega
    simp [h8, hd, ge_iff_le]

/-- Masking with `0xFFFE` aligns a 16-bit value down to an even boundary. -/
theorem and_0xFFFE_eq_align (n : Nat) (hn : n < 65536) :
    n &&& 0xFFFE = 2 * (n / 2) := by
  have e2 : 2 * (n / 2) = (n >>> 1) <<< 1 := by
    rw [Nat.shiftRight_eq_div_pow, Nat.shiftLeft_eq]
    norm_num [Nat.mul_comm]
  have eFFFE : (0xFFFE : Nat) = (2 ^ 15 - 1) <<< 1 := by decide
  rw [e2, eFFFE]
  apply Nat.eq_of_testBit_eq
  intro i
  simp only [Nat.testBit_and, Nat.testBit_shiftLeft, Nat.testBit_shiftRight,
    Nat.testBit_two_pow_sub_one]
  rcases Nat.eq_zero_or_pos i with h0 | h1
  · subst h0; simp
  · have h1' : 1 ≤ i := h1
    have hi : 1 + (i - 1) = i := by omega
    rw [hi]
    by_cases h16 : i < 16
    · have hd : i - 1 < 15 := by omega
      simp [h1', hd, ge_iff_le]
    · have hz : n.testBit i = false := by
        apply Nat.testBit_lt_two_pow
        calc n < 65536 := hn
          _ = 2 ^ 16 := by norm_num
          _ ≤ 2 ^ i := Nat.pow_le_pow_right (by norm_num) (by omega)
      simp [hz]

/-- The source's pixel-value match, read through the spec's opaque shade
labels, is exactly the claimed (high, low) table. -/
theorem shade_pixel (b1 b2 : Bool) :
    shadeIndex (pixel_value b1 b2) = claimedShade b2 b1 := by
  cases b1 <;> cases b2 <;> rfl

/-- `GPU::write_memory` succeeds for every in-range offset and stores the
raw byte (whatever the tile recompute does to the cache). -/
theorem GPU.write_memory_mem (gpu : GPU) (address value : Nat)
    (h : address < VRAM_SIZE) :
    ∃ gpu1, gpu.write_memory address value = some gpu1 ∧
      gpu1.memory = fun i => if i = address then value else gpu.memory i := by
  simp only [GPU.write_memory]
  rw [if_pos h]
  by_cases h18 : 0x1800 ≤ address
  · rw [if_pos h18]
    exact ⟨_, rfl, rfl⟩
  · rw [if_neg h18]
    exact ⟨_, rfl, rfl⟩

/-- Bus reads are defined at every address below the unbacked top slot
0xFFFF. -/
theorem MemoryBus.read_total (bus : MemoryBus) (address : Nat)
    (h : address < 0xFFFF) :
    ∃ x, bus.read_byte address = some x := by
  simp only [MemoryBus.read_byte, GPU.read_memory, get_vram_address,
    VRAM_BEGIN, VRAM_END, VRAM_SIZE, MEMORY_LEN]
  split_ifs <;> first | exact ⟨_, rfl⟩ | omega

/-- A bus write at an address below 0xFFFF succeeds; reading the same
address back returns the written byte, and every other address is
unaffected. -/
theorem MemoryBus.write_read (bus : MemoryBus) (address value : Nat)
    (h : address < 0xFFFF) :
    ∃ bus1, bus.write_byte address value = some bus1 ∧
      bus1.read_byte address = some value ∧
      ∀ a, a ≠ address → bus1.read_byte a = bus.read_byte a := by
  by_cases hv : VRAM_BEGIN ≤ address ∧ address < VRAM_END
  · have hv' : (0x8000 : Nat) ≤ address ∧ address < 0x9FFF := hv
    obtain ⟨gpu1, hw, hmem⟩ :=
      GPU.write_memory_mem bus.gpu (get_vram_address address) value
        (by simp only [get_vram_address, VRAM_SIZE, VRAM_BEGIN, VRAM_END]; omega)
    refine ⟨{ bus with gpu := gpu1 }, ?_, ?_, ?_⟩
    · simp only [MemoryBus.write_byte]
      rw [if_pos hv, hw]
      rfl
    · simp only [MemoryBus.read_byte]
      rw [if_pos hv]
      show gpu1.read_memory (get_vram_address address) = some value
      simp only [GPU.read_memory, hmem, get_vram_address, VRAM_SIZE,
        VRAM_BEGIN, VRAM_END]
      split_ifs <;> first | rfl | omega
    · intro a ha
      simp only [MemoryBus.read_byte]
      by_cases hav : VRAM_BEGIN ≤ a ∧ a < VRAM_END
      · have hav' : (0x8000 : Nat) ≤ a ∧ a < 0x9FFF := hav
        rw [if_pos hav, if_pos hav]
        show gpu1.read_memory (get_vram_address a) = bus.gpu.read_memory (get_vram_address a)
        simp only [GPU.read_memory, hmem, get_vram_address, VRAM_SIZE,
          VRAM_BEGIN, VRAM_END]
        split_ifs <;> first | rfl | omega
      · rw [if_neg hav, if_neg hav]
  · have hv' : ¬ ((0x8000 : Nat) ≤ address ∧ address < 0x9FFF) := hv
    refine ⟨{ bus with memory := fun i => if i = address then value else bus.memory i },
      ?_, ?_, ?_⟩
    · simp only [MemoryBus.write_byte]
      rw [if_neg hv, if_pos (show address < MEMORY_LEN from h)]
    · simp only [MemoryBus.read_byte]
      rw [if_neg hv, if_pos (show address < MEMORY_LEN from h)]
      simp
    · intro a ha
      simp only [MemoryBus.read_byte]
      by_cases hav : VRAM_BEGIN ≤ a ∧ a < VRAM_END
      · rw [if_pos hav, if_pos hav]
      · rw [if_neg hav, if_neg hav]
        by_cases hal : a < MEMORY_LEN
        · rw [if_pos hal, if_pos hal]
          simp [ha]
        · rw [if_neg hal, if_neg hal]

/-- `CPU::push` succeeds whenever sp−1 and sp−2 avoid the unbacked top
slot 0xFFFF (i.e. sp is neither 0 nor 1): it leaves sp decremented by 2,
with the high byte written at sp−1 and the low byte at sp−2, all other
addresses unchanged. -/
theorem CPU.push_spec (cpu : CPU) (v : Nat)
    (hsp : cpu.sp < 65536) (hsp0 : cpu.sp ≠ 0) (hsp1 : cpu.sp ≠ 1) :
    ∃ bus2, cpu.push v = some { cpu with sp := wrapping_sub16 cpu.sp 2, bus := bus2 } ∧
      bus2.read_byte (wrapping_sub16 cpu.sp 1) = some (get_msb v) ∧
      bus2.read_byte (wrapping_sub16 cpu.sp 2) = some (get_lsb v) ∧
      ∀ a, a ≠ wrapping_sub16 cpu.sp 1 → a ≠ wrapping_sub16 cpu.sp 2 →
        bus2.read_byte a = cpu.bus.read_byte a := by
  have hw1v : wrapping_sub16 cpu.sp 1 = cpu.sp - 1 := by
    simp only [wrapping_sub16]; omega
  have hw2v : wrapping_sub16 cpu.sp 2 = cpu.sp - 2 := by
    simp only [wrapping_sub16]; omega
  have hchain : wrapping_sub16 (wrapping_sub16 cpu.sp 1) 1 = wrapping_sub16 cpu.sp 2 := by
    simp only [wrapping_sub16]; omega
  obtain ⟨bus1, hwr1, hrd1, hfr1⟩ :=
    MemoryBus.write_read cpu.bus (wrapping_sub16 cpu.sp 1) (get_msb v)
      (by rw [hw1v]; omega)
  obtain ⟨bus2, hwr2, hrd2, hfr2⟩ :=
    MemoryBus.write_read bus1 (wrapping_sub16 cpu.sp 2) (get_lsb v)
      (by rw [hw2v]; omega)
  have hneq : wrapping_sub16 cpu.sp 1 ≠ wrapping_sub16 cpu.sp 2 := by
    rw [hw1v, hw2v]; omega
  refine ⟨bus2, ?_, ?_, hrd2, ?_⟩
  · simp only [CPU.push, hchain]
    rw [hwr1]
    simp only [Option.some_bind]
    rw [hwr2]
    rfl
  · rw [hfr2 _ hneq]
    exact hrd1
  · intro a ha1 ha2
    rw [hfr2 a ha2, hfr1 a ha1]

/-! ## Claim theorems -/

/-- C9: packing the four flags into a byte and unpacking again reproduces
the original combination; the packed byte holds zero, subtract,
half-carry, carry at bit positions 7, 6, 5, 4; and its low nibble is
always zero. -/
theorem flags_pack_unpack_roundtrip (flags : FlagsRegister) :
    FlagsRegister.ofU8 flags.toU8 = flags ∧
    flags.toU8.testBit 7 = flags.zero ∧
    flags.toU8.testBit 6 = flags.subtract ∧
    flags.toU8.testBit 5 = flags.half_carry ∧
    flags.toU8.testBit 4 = flags.carry ∧
    flags.toU8 % 16 = 0 := by
  obtain ⟨z, s, hc, c⟩ := flags
  cases z <;> cases s <;> cases hc <;> cases c <;> decide

/-- C3 counterexample: opcode byte 0x00 has no table entry, and
`CPU::decode` hits its `panic!` arm (a process abort carrying the byte and
prefix flag) rather than returning a non-fatal typed condition; the abort
is observable at the caller: `step()` on the concrete non-halted state
`cpu0` (memory holds 0x00 at pc) aborts instead of reporting a value. -/
theorem decode_0x00_hits_panic_arm :
    CPU.decode 0x00 false = .fatal 0x00 false ∧ cpu0.step = none :=
  ⟨rfl, rfl⟩

/-- C3 (amended): for every opcode byte, prefixed or not,
`Instruction::from_opcode` has no table entry (it returns `None`), and
`CPU::decode` then aborts through its `panic!` arm carrying that byte
and the prefix flag, instead of returning a non-fatal condition to the
caller. -/
theorem decode_no_entry_aborts (opcode : Nat) (prefixed : Bool) :
    Instruction.from_opcode opcode prefixed = none ∧
    CPU.decode opcode prefixed = .fatal opcode prefixed := by
  have h : Instruction.from_opcode opcode prefixed = none := by
    unfold Instruction.from_opcode
    cases prefixed
    · simp [from_opcode_not_prefixed_eq_none]
    · simp [from_opcode_prefixed_eq_none]
  refine ⟨h, ?_⟩
  unfold CPU.decode
  rw [h]

/-- C5: the bus dispatch is not total at the top of the address space —
the plain-storage array is declared with 0xFFFF slots, so both
`read_byte` and `write_byte` at address 0xFFFF index out of bounds (a
panic, modelled as `none`) instead of resolving to a defined slot. -/
theorem bus_address_top_out_of_bounds (bus : MemoryBus) (value : Nat) :
    bus.read_byte 0xFFFF = none ∧ bus.write_byte 0xFFFF value = none :=
  ⟨rfl, rfl⟩

/-- C4: the upper boundary address 0x9FFF is NOT routed to the video
unit — the source's half-open match pattern `VRAM_BEGIN..VRAM_END` sends
it to plain storage: a read at 0x9FFF returns the plain-storage byte, and
a write at 0x9FFF leaves the GPU untouched and lands in plain storage. -/
theorem bus_0x9FFF_routes_to_plain_storage (bus : MemoryBus) (value : Nat) :
    bus.read_byte 0x9FFF = some (bus.memory 0x9FFF) ∧
    bus.write_byte 0x9FFF value =
      some { bus with memory := fun i => if i = 0x9FFF then value else bus.memory i } :=
  ⟨rfl, rfl⟩

/-- C7: pc advancement itself wraps modulo 65536 (executing NOP at
pc = 0xFFFF returns next pc 0), but the operand fetches do not:
`read_next_byte` at pc = 0xFFFF fails on the checked `pc + 1` (a 16-bit
overflow) and `read_next_word` at pc = 0xFFFE fails as well, instead of
addressing (pc + 1) % 65536 and (pc + 2) % 65536. -/
theorem pc_operand_fetch_overflow_fails (registers : Registers) (sp : Nat)
    (bus : MemoryBus) :
    (CPU.mk registers 0xFFFF sp bus false).execute .NOP
      = some (CPU.mk registers 0xFFFF sp bus false, 0) ∧
    (CPU.mk registers 0xFFFF sp bus false).read_next_byte = none ∧
    (CPU.mk registers 0xFFFE sp bus false).read_next_word = none := by
  refine ⟨?_, rfl, rfl⟩
  show some (_, wrapping_add16 65535 1) = _
  simp [wrapping_add16]

/-- C10: executing ADD with each register operand other than C (A, B, D,
E, F, H, L) on a non-halted CPU is a silent no-op: the state is returned
unchanged, the next pc is the current pc (not advanced), and the result
is a normal value (`some`), with no unimplemented-semantics condition. -/
theorem execute_add_non_c_is_silent_noop (registers : Registers) (pc sp : Nat)
    (bus : MemoryBus) :
    ((CPU.mk registers pc sp bus false).execute (.ADD .A)
        = some (CPU.mk registers pc sp bus false, pc)) ∧
    ((CPU.mk registers pc sp bus false).execute (.ADD .B)
        = some (CPU.mk registers pc sp bus false, pc)) ∧
    ((CPU.mk registers pc sp bus false).execute (.ADD .D)
        = some (CPU.mk registers pc sp bus false, pc)) ∧
    ((CPU.mk registers pc sp bus false).execute (.ADD .E)
        = some (CPU.mk registers pc sp bus false, pc)) ∧
    ((CPU.mk registers pc sp bus false).execute (.ADD .F)
        = some (CPU.mk registers pc sp bus false, pc)) ∧
    ((CPU.mk registers pc sp bus false).execute (.ADD .H)
        = some (CPU.mk registers pc sp bus false, pc)) ∧
    ((CPU.mk registers pc sp bus false).execute (.ADD .L)
        = some (CPU.mk registers pc sp bus false, pc)) :=
  ⟨rfl, rfl, rfl, rfl, rfl, rfl, rfl⟩

/-- C1: executing ADD with register operand C on a non-halted CPU sets the
accumulator to the wrapping 8-bit sum of accumulator and C, recomputes the
zero flag from the result, clears subtract, sets half-carry iff the old
accumulator's low nibble plus the operand's low nibble exceeds 0xF, sets
carry iff the 8-bit addition overflowed, and returns pc advanced by 1
(mod 65536). -/
theorem execute_add_c_spec (registers : Registers) (pc sp : Nat) (bus : MemoryBus) :
    (CPU.mk registers pc sp bus false).execute (.ADD .C) =
      some (CPU.mk
        { registers with
            a := (registers.a + registers.c) % 256
            f := { zero := ((registers.a + registers.c) % 256 == 0)
                   subtract := false
                   half_carry := decide (0xF < (registers.a &&& 0xF) + (registers.c &&& 0xF))
                   carry := decide (256 ≤ registers.a + registers.c) } }
        pc sp bus false,
        (pc + 1) % 65536) :=
  rfl

/-- C8 counterexample: with the CPU halted (concrete state `cpuHalted0`,
all memory zero), `step()` does not complete as a no-op: it fetches and
decodes before `execute`'s halt check, and decode of byte 0x00 aborts
through the `panic!` arm. -/
theorem step_while_halted_aborts : cpuHalted0.step = none := rfl

/-- C8 (amended): while the CPU is halted, `execute` is a no-op for every
instruction — it returns the entire state (registers, flags, sp, bus,
video memory, tile cache) unchanged together with the unchanged pc; the
halt check lives in `execute`, while `step` itself still performs fetch
and decode first and aborts if decode fails. -/
theorem execute_while_halted_is_noop (registers : Registers) (pc sp : Nat)
    (bus : MemoryBus) (instruction : Instruction) :
    (CPU.mk registers pc sp bus true).execute instruction =
      some (CPU.mk registers pc sp bus true, pc) :=
  rfl

/-- C6: a video-memory write at an offset inside the tile-data sub-region
stores the raw byte and recomputes exactly the one tile row addressed by
the write: the offset is aligned down to an even boundary (`&&& 0xFFFE`)
to obtain the row's two source bytes in (low-plane, high-plane) order,
and each of the 8 pixels (bit 7 = leftmost) gets the 2-bit shade index
(high=1,low=1) → 3, (high=1,low=0) → 1, (high=0,low=1) → 2,
(high=0,low=0) → 0; every other tile row is left unchanged. -/
theorem write_memory_tile_row (gpu : GPU) (offset value : Nat)
    (h : offset < 0x1800) :
    ∃ gpu1, gpu.write_memory offset value = some gpu1 ∧
      gpu1.memory offset = value ∧
      (∀ i, i ≠ offset → gpu1.memory i = gpu.memory i) ∧
      offset &&& 0xFFFE = 2 * (offset / 2) ∧
      (∀ p, p < 8 →
        shadeIndex (gpu1.tiles (offset / 16) ((offset % 16) / 2) p) =
          claimedShade ((gpu1.memory ((offset &&& 0xFFFE) + 1) &&& (1 <<< (7 - p))) != 0)
                       ((gpu1.memory (offset &&& 0xFFFE) &&& (1 <<< (7 - p))) != 0)) ∧
      (∀ t r p, ¬(t = offset / 16 ∧ r = (offset % 16) / 2) →
        gpu1.tiles t r p = gpu.tiles t r p) := by
  have hsz : offset < VRAM_SIZE := by
    simp only [VRAM_SIZE, VRAM_BEGIN, VRAM_END]; omega
  have h18 : ¬ (0x1800 ≤ offset) := by omega
  simp only [GPU.write_memory]
  rw [if_pos hsz, if_neg h18]
  refine ⟨_, rfl, ?_, ?_, ?_, ?_, ?_⟩
  · simp
  · intro i hi
    simp [hi]
  · exact and_0xFFFE_eq_align offset (by omega)
  · intro p hp
    show shadeIndex (if _ ∧ _ ∧ p < 8 then _ else _) = _
    rw [if_pos ⟨rfl, rfl, hp⟩]
    exact shade_pixel _ _
  · intro t r p hne
    show (if _ ∧ _ ∧ p < 8 then _ else _) = _
    rw [if_neg]
    intro hcon
    exact hne ⟨hcon.1, hcon.2.1⟩

/-- C6 witness: the tile-row recompute theorem applied at the concrete
input (zeroed GPU, offset 0, value 0x80). -/
theorem write_memory_tile_row_witness :
    (0 : Nat) < 0x1800 ∧
    (∃ gpu1, gpu0.write_memory 0 0x80 = some gpu1 ∧
      gpu1.memory 0 = 0x80 ∧
      (∀ i, i ≠ 0 → gpu1.memory i = gpu0.memory i) ∧
      0 &&& 0xFFFE = 2 * (0 / 2) ∧
      (∀ p, p < 8 →
        shadeIndex (gpu1.tiles (0 / 16) ((0 % 16) / 2) p) =
          claimedShade ((gpu1.memory ((0 &&& 0xFFFE) + 1) &&& (1 <<< (7 - p))) != 0)
                       ((gpu1.memory (0 &&& 0xFFFE) &&& (1 <<< (7 - p))) != 0)) ∧
      (∀ t r p, ¬(t = 0 / 16 ∧ r = (0 % 16) / 2) →
        gpu1.tiles t r p = gpu0.tiles t r p)) :=
  ⟨by decide, write_memory_tile_row gpu0 0 0x80 (by decide)⟩

/-- C2 counterexample: at the concrete non-halted CPU state `cpuSp0`
(sp = 0), push(0xBEEF) does not complete — the first stack write computes
sp−1 = 0xFFFF, which indexes outside the declared plain-storage array, so
the claimed push/pop round trip fails for this state. -/
theorem push_at_sp0_fails :
    cpuSp0.is_halted = false ∧ cpuSp0.push 0xBEEF = none :=
  ⟨rfl, rfl⟩

/-- C2 (amended): for every 16-bit value v and every non-halted CPU state
whose sp is neither 0 nor 1 (so that the stack slots sp−1 and sp−2 avoid
the unbacked address 0xFFFF): push(v) writes the high byte at sp−1 and
the low byte at sp−2 leaving sp decremented by 2, and pop() then returns
v and restores sp; and when additionally pc is at most 0xFFFC (so that
the CALL immediate fetch at pc+1/pc+2 neither overflows nor touches
0xFFFF), executing CALL (condition true) followed by executing RET
(condition true) yields next pc exactly the address after the CALL,
pc + 3. -/
theorem push_pop_call_ret (cpu : CPU) (v : Nat)
    (hv : v < 65536) (hsp : cpu.sp < 65536) (hsp0 : cpu.sp ≠ 0) (hsp1 : cpu.sp ≠ 1)
    (hhalt : cpu.is_halted = false) :
    (∃ cpu1, cpu.push v = some cpu1 ∧
       cpu1.sp = wrapping_sub16 cpu.sp 2 ∧
       cpu1.bus.read_byte (wrapping_sub16 cpu.sp 1) = some (get_msb v) ∧
       cpu1.bus.read_byte (wrapping_sub16 cpu.sp 2) = some (get_lsb v) ∧
       ∃ cpu2, cpu1.pop = some (cpu2, v) ∧ cpu2.sp = cpu.sp) ∧
    (∀ jt1 jt2 : JumpType, cpu.pc ≤ 0xFFFC →
       jt1.should_jump cpu.registers.f = true →
       jt2.should_jump cpu.registers.f = true →
       ∃ cpuA target, cpu.execute (.CALL jt1) = some (cpuA, target) ∧
         ∃ cpuB, (({ cpuA with pc := target } : CPU).execute (.RET jt2))
                   = some (cpuB, cpu.pc + 3)) := by
  have hA1 : wrapping_add16 (wrapping_sub16 cpu.sp 2) 1 = wrapping_sub16 cpu.sp 1 := by
    simp only [wrapping_add16, wrapping_sub16]; omega
  have hA2 : wrapping_add16 (wrapping_sub16 cpu.sp 1) 1 = cpu.sp := by
    simp only [wrapping_add16, wrapping_sub16]; omega
  constructor
  · obtain ⟨bus2, hpush, hr1, hr2, _⟩ := CPU.push_spec cpu v hsp hsp0 hsp1
    refine ⟨_, hpush, rfl, hr1, hr2, ?_⟩
    have hpop : ({ cpu with sp := wrapping_sub16 cpu.sp 2, bus := bus2 } : CPU).pop
        = some ({ cpu with bus := bus2 }, v) := by
      simp only [CPU.pop, hA1, hA2]
      rw [hr2]
      simp only [Option.some_bind, hA1]
      rw [hr1]
      simp only [Option.map_some', hA2]
      rw [get_u16_msb_lsb v hv]
    exact ⟨_, hpop, rfl⟩
  · intro jt1 jt2 hpc hj1 hj2
    have hpc3 : wrapping_add16 cpu.pc 3 = cpu.pc + 3 := by
      simp only [wrapping_add16]; omega
    obtain ⟨busB, hpushB, hrB1, hrB2, _⟩ :=
      CPU.push_spec cpu (wrapping_add16 cpu.pc 3) hsp hsp0 hsp1
    obtain ⟨x1, hx1⟩ := MemoryBus.read_total busB (cpu.pc + 1) (by omega)
    obtain ⟨x2, hx2⟩ := MemoryBus.read_total busB (cpu.pc + 2) (by omega)
    have hcall : cpu.execute (.CALL jt1)
        = some ({ cpu with sp := wrapping_sub16 cpu.sp 2, bus := busB },
                get_u16 x2 x1) := by
      simp only [CPU.execute, hhalt, Bool.false_eq_true, if_false, hj1, CPU.call, if_true]
      rw [hpushB]
      simp only [Option.some_bind, CPU.read_next_word, checked_add16]
      rw [if_pos (show cpu.pc + 1 < 65536 by omega), if_pos (show cpu.pc + 2 < 65536 by omega)]
      simp only [Option.some_bind]
      rw [hx1, hx2]
      simp [hhalt]
    refine ⟨_, _, hcall, ?_⟩
    have hX : wrapping_add16 cpu.pc 3 < 65536 := Nat.mod_lt _ (by norm_num)
    have hret : (CPU.mk cpu.registers (get_u16 x2 x1) (wrapping_sub16 cpu.sp 2)
                   busB cpu.is_halted).execute (.RET jt2)
        = some (CPU.mk cpu.registers (get_u16 x2 x1) cpu.sp busB cpu.is_halted,
                cpu.pc + 3) := by
      simp only [CPU.execute, hhalt, Bool.false_eq_true, if_false, hj2, CPU.return_,
        if_true, CPU.pop, hA1, hA2]
      rw [hrB2]
      simp only [Option.some_bind, hA1]
      rw [hrB1]
      simp only [Option.map_some', hA2]
      rw [get_u16_msb_lsb _ hX, hpc3]
    exact ⟨_, hret⟩

/-- C2 witness: the amended push/pop and CALL/RET theorem applied at the
concrete state `cpu0` (sp = 0x100, pc = 0) with v = 0xBEEF. -/
theorem push_pop_call_ret_witness :
    (0xBEEF : Nat) < 65536 ∧ cpu0.sp < 65536 ∧ cpu0.sp ≠ 0 ∧ cpu0.sp ≠ 1 ∧
    cpu0.is_halted = false ∧
    ((∃ cpu1, cpu0.push 0xBEEF = some cpu1 ∧
       cpu1.sp = wrapping_sub16 cpu0.sp 2 ∧
       cpu1.bus.read_byte (wrapping_sub16 cpu0.sp 1) = some (get_msb 0xBEEF) ∧
       cpu1.bus.read_byte (wrapping_sub16 cpu0.sp 2) = some (get_lsb 0xBEEF) ∧
       ∃ cpu2, cpu1.pop = some (cpu2, 0xBEEF) ∧ cpu2.sp = cpu0.sp) ∧
     (∀ jt1 jt2 : JumpType, cpu0.pc ≤ 0xFFFC →
       jt1.should_jump cpu0.registers.f = true →
       jt2.should_jump cpu0.registers.f = true →
       ∃ cpuA target, cpu0.execute (.CALL jt1) = some (cpuA, target) ∧
         ∃ cpuB, (({ cpuA with pc := target } : CPU).execute (.RET jt2))
                   = some (cpuB, cpu0.pc + 3))) :=
  ⟨by decide, by decide, by decide, by decide, rfl,
   push_pop_call_ret cpu0 0xBEEF (by decide) (by decide) (by decide) (by decide) rfl⟩

end TinyGB
